import Mathlib

/-!
Shallow embedding of the smart-canteen order backend
(src/backend/routes/orders.js, src/backend/routes/menu.js, and the
Order / Menu mongoose schemas in src/unnamed/part_000), together with
theorems settling the frozen claims about its specification.

Modelling conventions:
* Mongo documents become Lean structures; the catalog and the order
  collection are lists.
* `findOne` / `findById` become `List.find?` (first match); in-place
  `save` of a found document becomes `updateFirst` (replace the first
  match).
* `findByIdAndUpdate(id, { $inc: { stockCount: d } })` becomes
  `menuIncStock`: it updates the raw field and runs NO schema pre-save
  hooks (mongoose `findByIdAndUpdate` bypasses document middleware).
* `document.save()` runs the schema pre-save hooks: `orderPreSave`
  (QR-token generation) for orders, `menuPreSave` (updatedAt /
  isAvailable recomputation) for menu items.
* Timestamps (`Date.now()`) and randomness (`crypto.randomBytes`) are
  passed in as explicit oracle parameters.
* Numbers are `Int` (a JS number field such as `stockCount` is not
  clamped at update time; the `min: 0` validators run only on create /
  validated writes, which the embedded routes model where the source
  hits them).
-/

namespace SmartCanteen

/-- Order lifecycle status (orderSchema.status enum). -/
inductive OrderStatus where
  | pending_payment
  | active
  | scanned
  | delivered
  | cancelled
deriving DecidableEq, Repr

/-- Payment status (orderSchema.paymentStatus enum). -/
inductive PaymentStatus where
  | pending
  | completed
  | failed
deriving DecidableEq, Repr

/-- The string stored in Mongo for each status value (used in the scan
handler's template literal message). -/
def statusString : OrderStatus → String
  | .pending_payment => "pending_payment"
  | .active => "active"
  | .scanned => "scanned"
  | .delivered => "delivered"
  | .cancelled => "cancelled"

/-- A catalog (Menu) document: the fields of menuSchema the lifecycle
routes read or write. -/
structure MenuItem where
  id : Nat
  itemName : String
  price : Int
  stockCount : Int
  isAvailable : Bool
  updatedAt : Nat
deriving DecidableEq, Repr

/-- One line of orderSchema.items: menu-item reference plus the name,
quantity and unit price snapshotted at checkout. -/
structure OrderLine where
  menuItem : Nat
  itemName : String
  quantity : Int
  price : Int
deriving DecidableEq, Repr

/-- An Order document (orderSchema). -/
structure Order where
  id : Nat
  studentId : Nat
  items : List OrderLine
  totalAmount : Int
  razorpayOrderId : String
  paymentStatus : PaymentStatus
  qrCodeData : String
  status : OrderStatus
  scannedAt : Option Nat
  deliveredAt : Option Nat
  createdAt : Nat
deriving DecidableEq, Repr

/-- The persistent state the routes act on: the Menu collection and the
Order collection. -/
structure SysState where
  catalog : List MenuItem
  orders : List Order
deriving DecidableEq, Repr

/-- The `unique` option on orderSchema.qrCodeData: the schema sets it to
`false` explicitly ("MAKE SURE THIS IS FALSE OR REMOVED"), so no
uniqueness constraint is enforced on the field. -/
def qrCodeDataUnique : Bool := false

/-- orderSchema pre-save hook: when the document is saved with status
`active` and an empty qrCodeData, mint the QR token from the current
timestamp and 8 random bytes rendered as hex. -/
def orderPreSave (now : Nat) (rand : String) (o : Order) : Order :=
  if o.status = .active ∧ o.qrCodeData = "" then
    { o with qrCodeData := "ORD-" ++ toString now ++ "-" ++ rand }
  else o

/-- menuSchema pre-save hooks: stamp updatedAt and recompute isAvailable
as stockCount > 0. Runs only on document `save`, not on
`findByIdAndUpdate`. -/
def menuPreSave (now : Nat) (m : MenuItem) : MenuItem :=
  { m with updatedAt := now, isAvailable := decide (m.stockCount > 0) }

/-- Embedding of `Menu.findByIdAndUpdate(id, { $inc: { stockCount: delta } })`:
a raw field update on the matching document; schema pre-save hooks do
NOT run, so isAvailable is left as it was. -/
def menuIncStock (id : Nat) (delta : Int) (catalog : List MenuItem) : List MenuItem :=
  catalog.map fun m => if m.id = id then { m with stockCount := m.stockCount + delta } else m

/-- Replace the first element satisfying `p` by its image under `f`
(a found document mutated and saved back in place). -/
def updateFirst (p : α → Bool) (f : α → α) : List α → List α
  | [] => []
  | a :: as => if p a then f a :: as else a :: updateFirst p f as

/-- A line of the checkout request body (`items` array). -/
structure CheckoutLine where
  menuItem : Nat
  quantity : Int
deriving DecidableEq, Repr

/-- Outcome of the per-line validation loop of the checkout handler. -/
inductive BuildResult where
  | ok (total : Int) (lines : List OrderLine)
  | itemNotFound
  | lowStock (itemName : String)
deriving DecidableEq, Repr

/-- The checkout handler's loop over the requested items: fetch each
menu item (404 if absent), reject if stockCount < quantity (400 "Low
stock for ..."), otherwise accumulate totalAmount and push the
snapshotted order line. -/
def buildOrderItems (catalog : List MenuItem) : List CheckoutLine → BuildResult
  | [] => .ok 0 []
  | l :: ls =>
    match catalog.find? (fun m => m.id == l.menuItem) with
    | none => .itemNotFound
    | some m =>
      if m.stockCount < l.quantity then .lowStock m.itemName
      else
        match buildOrderItems catalog ls with
        | .ok t rest =>
            .ok (m.price * l.quantity + t)
              ({ menuItem := m.id, itemName := m.itemName,
                 quantity := l.quantity, price := m.price } :: rest)
        | .itemNotFound => .itemNotFound
        | .lowStock nm => .lowStock nm

/-- Result of POST /api/orders/checkout. -/
inductive CheckoutResult where
  | success (s : SysState) (order : Order)
  | noItems
  | itemNotFound
  | lowStock (itemName : String)
deriving DecidableEq, Repr

/-- POST /api/orders/checkout: validate the request lines against the
catalog (stock is checked but never written), obtain a payment handle
(`rzpOrderId`, real or mock, opaque here), and create the order in
`pending_payment` with paymentStatus `pending`; `Order.create` runs the
orderSchema pre-save hook. -/
def checkoutHandler (studentId : Nat) (lines : List CheckoutLine) (newId : Nat)
    (rzpOrderId : String) (now : Nat) (rand : String) (s : SysState) : CheckoutResult :=
  if lines = [] then .noItems
  else
    match buildOrderItems s.catalog lines with
    | .itemNotFound => .itemNotFound
    | .lowStock nm => .lowStock nm
    | .ok total its =>
      let order : Order := orderPreSave now rand
        { id := newId, studentId := studentId, items := its, totalAmount := total,
          razorpayOrderId := rzpOrderId, paymentStatus := .pending, qrCodeData := "",
          status := .pending_payment, scannedAt := none, deliveredAt := none,
          createdAt := now }
      .success { s with orders := s.orders ++ [order] } order

/-- Result of POST /api/orders/verify. -/
inductive VerifyResult where
  | success (s : SysState) (qrCodeData : String)
  | verificationFailed
  | orderNotFound
deriving DecidableEq, Repr

/-- The signature check of the verify handler: the source hardcodes
`const isSignatureValid = true` ("TEMPORARY BYPASS FOR TESTING"); the
request's payment id and signature are never consulted. -/
def isSignatureValid : Bool := true

/-- POST /api/orders/verify: if the (bypassed) signature check failed it
would 400; find the order by razorpayOrderId (404 if absent, with NO
check of its current status); `$inc`-decrement stock for every line;
set paymentStatus completed and status active; `save` runs the QR-token
pre-save hook. -/
def verifyHandler (razorpay_order_id razorpay_payment_id razorpay_signature : String)
    (now : Nat) (rand : String) (s : SysState) : VerifyResult :=
  if isSignatureValid = false then .verificationFailed
  else
    match s.orders.find? (fun o => o.razorpayOrderId == razorpay_order_id) with
    | none => .orderNotFound
    | some o =>
      .success
        { catalog := o.items.foldl (fun cs it => menuIncStock it.menuItem (-it.quantity) cs) s.catalog,
          orders := updateFirst (fun x => x.razorpayOrderId == razorpay_order_id)
            (fun x => orderPreSave now rand { x with paymentStatus := .completed, status := .active })
            s.orders }
        (orderPreSave now rand { o with paymentStatus := .completed, status := .active }).qrCodeData

/-- Result of the PATCH action routes (scan / deliver / cancel): either
the new state, or an HTTP status code with the response message. -/
inductive ActionResult where
  | success (s : SysState)
  | failure (code : Nat) (msg : String)
deriving DecidableEq, Repr

/-- Whether an ActionResult is a success. -/
def ActionResult.isSuccess : ActionResult → Bool
  | .success _ => true
  | .failure _ _ => false

/-- PATCH /api/orders/scan/:qrData: find the order by qrCodeData (404
"Invalid QR code" if none), 400 "Order is <status>" unless status is
active, else set status scanned and stamp scannedAt, then save. -/
def scanHandler (qrData : String) (now : Nat) (s : SysState) : ActionResult :=
  match s.orders.find? (fun o => o.qrCodeData == qrData) with
  | none => .failure 404 "Invalid QR code"
  | some o =>
    if o.status ≠ .active then .failure 400 ("Order is " ++ statusString o.status)
    else .success
      { s with orders := (updateFirst (fun x => x.qrCodeData == qrData)
          (fun x => orderPreSave now "" { x with status := .scanned, scannedAt := some now })
          s.orders) }

/-- PATCH /api/orders/:id/deliver: find the order by id (404 if none),
400 "Must scan before delivery" unless status is scanned, else set
status delivered and stamp deliveredAt, then save. -/
def deliverHandler (orderId : Nat) (now : Nat) (s : SysState) : ActionResult :=
  match s.orders.find? (fun o => o.id == orderId) with
  | none => .failure 404 "Order not found"
  | some o =>
    if o.status ≠ .scanned then .failure 400 "Must scan before delivery"
    else .success
      { s with orders := (updateFirst (fun x => x.id == orderId)
          (fun x => orderPreSave now "" { x with status := .delivered, deliveredAt := some now })
          s.orders) }

/-- PATCH /api/orders/:id/cancel: find the order by id (404 if none),
400 if status is delivered or scanned, else `$inc`-increment stock back
for every line (unconditionally, whatever the prior status), set status
cancelled, then save. -/
def cancelHandler (orderId : Nat) (now : Nat) (s : SysState) : ActionResult :=
  match s.orders.find? (fun o => o.id == orderId) with
  | none => .failure 404 "Order not found"
  | some o =>
    if o.status = .delivered ∨ o.status = .scanned then
      .failure 400 "Cannot cancel an order in progress or delivered"
    else .success
      { catalog := o.items.foldl (fun cs it => menuIncStock it.menuItem it.quantity cs) s.catalog,
        orders := updateFirst (fun x => x.id == orderId)
          (fun x => orderPreSave now "" { x with status := .cancelled })
          s.orders }

/-- One invocation of a lifecycle route, with its oracle inputs. -/
inductive Op where
  | checkout (studentId : Nat) (lines : List CheckoutLine) (newId : Nat)
      (rzpOrderId : String) (now : Nat) (rand : String)
  | verify (rzpOrderId paymentId signature : String) (now : Nat) (rand : String)
  | scan (qrData : String) (now : Nat)
  | deliver (orderId : Nat) (now : Nat)
  | cancel (orderId : Nat) (now : Nat)
deriving DecidableEq, Repr

/-- The state after one route invocation: handlers that fail return
before any write, so a failing invocation leaves the state unchanged. -/
def applyOp (s : SysState) : Op → SysState
  | .checkout sid lines nid rzp now rand =>
    match checkoutHandler sid lines nid rzp now rand s with
    | .success s' _ => s'
    | _ => s
  | .verify r p sig now rand =>
    match verifyHandler r p sig now rand s with
    | .success s' _ => s'
    | _ => s
  | .scan qr now =>
    match scanHandler qr now s with
    | .success s' => s'
    | _ => s
  | .deliver oid now =>
    match deliverHandler oid now s with
    | .success s' => s'
    | _ => s
  | .cancel oid now =>
    match cancelHandler oid now s with
    | .success s' => s'
    | _ => s

/-- Run a sequence of route invocations. -/
def runOps (s : SysState) (ops : List Op) : SysState := ops.foldl applyOp s

/-- The order-lifecycle transitions the specification's state machine
allows for a single step: stay put, or move along a defined edge. -/
def statusStep (a b : OrderStatus) : Prop :=
  a = b ∨ (a = .pending_payment ∧ b = .active) ∨ (a = .active ∧ b = .scanned) ∨
    (a = .scanned ∧ b = .delivered) ∨ ((a = .pending_payment ∨ a = .active) ∧ b = .cancelled)

instance (a b : OrderStatus) : Decidable (statusStep a b) := by
  unfold statusStep
  infer_instance

/-- Whether a VerifyResult is a success. -/
def VerifyResult.isSuccess : VerifyResult → Bool
  | .success _ _ => true
  | _ => false

/-! Concrete fixtures used by counterexamples and witnesses. -/

/-- A catalog item with five units in stock. -/
def teaItem : MenuItem :=
  { id := 1, itemName := "Tea", price := 10, stockCount := 5, isAvailable := true, updatedAt := 0 }

/-- Initial state: one catalog item, no orders. -/
def initState : SysState := { catalog := [teaItem], orders := [] }

/-- Checkout then verify then cancel one unit of the tea item: leaves the
single order cancelled. -/
def c1Trace : List Op :=
  [ .checkout 7 [⟨1, 1⟩] 1 "r1" 0 "x", .verify "r1" "pay1" "sig1" 1 "aa", .cancel 1 2 ]

/-- Initial state with a single unit in stock. -/
def oneStockState : SysState :=
  { catalog := [{ teaItem with stockCount := 1 }], orders := [] }

/-- Two checkouts of the last unit, then both orders verified: the second
verification drives the stock negative. -/
def c2Trace : List Op :=
  [ .checkout 7 [⟨1, 1⟩] 1 "rA" 0 "", .checkout 8 [⟨1, 1⟩] 2 "rB" 0 "",
    .verify "rA" "payA" "sigA" 1 "aa", .verify "rB" "payB" "sigB" 2 "bb" ]

/-- A pending order awaiting verification of payment handle "rA". -/
def c3Order : Order :=
  { id := 1, studentId := 7, items := [⟨1, "Tea", 1, 10⟩], totalAmount := 10,
    razorpayOrderId := "rA", paymentStatus := .pending, qrCodeData := "",
    status := .pending_payment, scannedAt := none, deliveredAt := none, createdAt := 0 }

/-- A state holding just `c3Order`. -/
def c3State : SysState := { catalog := [teaItem], orders := [c3Order] }

/-- The state of `c3Order` after verification at time 1 with random hex
"ab": payment completed, status active, QR token minted by the
pre-save hook. -/
def c3VerifiedOrder : Order :=
  { c3Order with paymentStatus := .completed, status := .active, qrCodeData := "ORD-1-ab" }

/-- Two checkouts, then both orders verified at the same timestamp with
the same random bytes: both QR tokens come out identical. -/
def c4Trace : List Op :=
  [ .checkout 7 [⟨1, 1⟩] 1 "rA" 0 "", .checkout 8 [⟨1, 1⟩] 2 "rB" 0 "",
    .verify "rA" "payA" "sigA" 5 "ab", .verify "rB" "payB" "sigB" 5 "ab" ]

/-- Checkout and verify one order; its QR token is "ORD-1-ab". -/
def c5TraceA : List Op :=
  [ .checkout 7 [⟨1, 1⟩] 1 "rA" 0 "", .verify "rA" "payA" "sigA" 1 "ab" ]

/-- Continuation of `c5TraceA`: scan the token, then re-verify the same
payment handle — the unguarded verify resets the scanned order to
active. -/
def c5TraceB : List Op :=
  c5TraceA ++ [ .scan "ORD-1-ab" 3, .verify "rA" "payA" "sigA" 4 "cd" ]

/-- Checkout two units (stock stays 5: checkout never decrements). -/
def c6Trace : List Op := [ .checkout 7 [⟨1, 2⟩] 1 "r6" 0 "" ]

/-- Checkout and verify the last unit in stock: stockCount drops to 0 but
isAvailable is never recomputed by the `$inc` update. -/
def c9Trace : List Op :=
  [ .checkout 7 [⟨1, 1⟩] 1 "r9" 0 "", .verify "r9" "pay9" "sig9" 1 "zz" ]

/-- An active, QR-bearing order used to exercise scan / deliver / cancel. -/
def wActiveOrder : Order :=
  { id := 1, studentId := 7, items := [⟨1, "Tea", 1, 10⟩], totalAmount := 10,
    razorpayOrderId := "rW", paymentStatus := .completed, qrCodeData := "t",
    status := .active, scannedAt := none, deliveredAt := none, createdAt := 0 }

/-- A state holding just `wActiveOrder`. -/
def wState : SysState := { catalog := [teaItem], orders := [wActiveOrder] }

/-- The state of `wActiveOrder` after a successful scan at time 5. -/
def wScannedOrder : Order := { wActiveOrder with status := .scanned, scannedAt := some 5 }

/-- A state holding just `wScannedOrder`. -/
def wScanState : SysState := { catalog := [teaItem], orders := [wScannedOrder] }

/-- The state of `wScannedOrder` after delivery at time 6. -/
def wDeliveredOrder : Order := { wScannedOrder with status := .delivered, deliveredAt := some 6 }

/-- The state of `wActiveOrder` after cancellation. -/
def wCancelledOrder : Order := { wActiveOrder with status := .cancelled }

/-- The state of `wActiveOrder` after a (re-)verification: payment
completed, status active; the QR hook leaves the already-set token
unchanged. -/
def wVerifiedOrder : Order :=
  { wActiveOrder with paymentStatus := .completed, status := .active }

/-- A state holding just `wDeliveredOrder`. -/
def wDeliverState : SysState := { catalog := [teaItem], orders := [wDeliveredOrder] }

/-- The order created by a checkout of two units of the tea item with
payment handle "r7" at time 0. -/
def c7Order : Order :=
  { id := 1, studentId := 7, items := [⟨1, "Tea", 2, 10⟩], totalAmount := 20,
    razorpayOrderId := "r7", paymentStatus := .pending, qrCodeData := "",
    status := .pending_payment, scannedAt := none, deliveredAt := none, createdAt := 0 }

/-- The state after that checkout. -/
def c7State : SysState := { catalog := [teaItem], orders := [c7Order] }

end SmartCanteen

namespace SmartCanteen

theorem length_updateFirst (p : α → Bool) (f : α → α) (l : List α) :
    (updateFirst p f l).length = l.length := by
  induction l with
  | nil => rfl
  | cons a as ih => by_cases h : p a <;> simp [updateFirst, h, ih]

theorem updateFirst_getElem? (p : α → Bool) (f : α → α) (l : List α) (o : α)
    (hfind : l.find? p = some o) (i : Nat) :
    (updateFirst p f l)[i]? = l[i]? ∨
      (l[i]? = some o ∧ (updateFirst p f l)[i]? = some (f o)) := by
  induction l generalizing i with
  | nil => simp at hfind
  | cons a as ih =>
    by_cases h : p a
    · rw [List.find?_cons_of_pos _ h] at hfind
      injection hfind with h'
      subst h'
      cases i with
      | zero => exact Or.inr ⟨by simp, by simp [updateFirst, h]⟩
      | succ j => exact Or.inl (by simp [updateFirst, h])
    · rw [List.find?_cons_of_neg _ h] at hfind
      cases i with
      | zero => exact Or.inl (by simp [updateFirst, h])
      | succ j =>
        rcases ih hfind j with h1 | ⟨h1, h2⟩
        · exact Or.inl (by simpa [updateFirst, h] using h1)
        · exact Or.inr ⟨by simpa using h1, by simpa [updateFirst, h] using h2⟩

theorem find?_updateFirst (p : α → Bool) (f : α → α) (l : List α) (o : α)
    (hfind : l.find? p = some o) (hf : p (f o) = true) :
    (updateFirst p f l).find? p = some (f o) := by
  induction l with
  | nil => simp at hfind
  | cons a as ih =>
    by_cases h : p a
    · rw [List.find?_cons_of_pos _ h] at hfind
      injection hfind with h'
      subst h'
      simp only [updateFirst, if_pos h]
      exact List.find?_cons_of_pos _ hf
    · rw [List.find?_cons_of_neg _ h] at hfind
      simp only [updateFirst, if_neg h]
      rw [List.find?_cons_of_neg _ h]
      exact ih hfind

theorem mem_updateFirst (p : α → Bool) (f : α → α) (l : List α) (b : α)
    (hb : b ∈ updateFirst p f l) : b ∈ l ∨ ∃ a ∈ l, b = f a := by
  induction l with
  | nil => simp [updateFirst] at hb
  | cons a as ih =>
    by_cases h : p a
    · simp only [updateFirst, if_pos h, List.mem_cons] at hb
      rcases hb with hb | hb
      · exact Or.inr ⟨a, by simp, hb⟩
      · exact Or.inl (List.mem_cons_of_mem _ hb)
    · simp only [updateFirst, if_neg h, List.mem_cons] at hb
      rcases hb with hb | hb
      · exact Or.inl (by simp [hb])
      · rcases ih hb with h1 | ⟨a', ha', hba⟩
        · exact Or.inl (List.mem_cons_of_mem _ h1)
        · exact Or.inr ⟨a', List.mem_cons_of_mem _ ha', hba⟩

theorem orderPreSave_status (now : Nat) (rand : String) (o : Order) :
    (orderPreSave now rand o).status = o.status := by
  unfold orderPreSave
  split <;> rfl

theorem orderPreSave_fields (now : Nat) (rand : String) (o : Order) :
    (orderPreSave now rand o).id = o.id ∧
    (orderPreSave now rand o).studentId = o.studentId ∧
    (orderPreSave now rand o).items = o.items ∧
    (orderPreSave now rand o).totalAmount = o.totalAmount ∧
    (orderPreSave now rand o).razorpayOrderId = o.razorpayOrderId ∧
    (orderPreSave now rand o).paymentStatus = o.paymentStatus ∧
    (orderPreSave now rand o).status = o.status ∧
    (orderPreSave now rand o).scannedAt = o.scannedAt ∧
    (orderPreSave now rand o).deliveredAt = o.deliveredAt ∧
    (orderPreSave now rand o).createdAt = o.createdAt := by
  unfold orderPreSave
  split <;> exact ⟨rfl, rfl, rfl, rfl, rfl, rfl, rfl, rfl, rfl, rfl⟩

theorem orderPreSave_qr_of_ne (now : Nat) (rand : String) (o : Order)
    (h : o.qrCodeData ≠ "") : (orderPreSave now rand o).qrCodeData = o.qrCodeData := by
  unfold orderPreSave
  split
  · exact absurd ‹o.status = .active ∧ o.qrCodeData = ""›.2 h
  · rfl

theorem orderPreSave_of_not_active (now : Nat) (rand : String) (o : Order)
    (h : o.status ≠ .active) : orderPreSave now rand o = o := by
  unfold orderPreSave
  split
  · exact absurd ‹o.status = .active ∧ o.qrCodeData = ""›.1 h
  · rfl

theorem orderPreSave_qr_of_active_empty (now : Nat) (rand : String) (o : Order)
    (h1 : o.status = .active) (h2 : o.qrCodeData = "") :
    (orderPreSave now rand o).qrCodeData = "ORD-" ++ toString now ++ "-" ++ rand := by
  unfold orderPreSave
  rw [if_pos ⟨h1, h2⟩]

theorem qrToken_ne_empty (now : Nat) (rand : String) :
    ("ORD-" ++ toString now ++ "-" ++ rand) ≠ "" := by
  intro h
  have h2 : ("ORD-" ++ toString now ++ "-" ++ rand).length = 0 := by rw [h]; rfl
  rw [String.length_append, String.length_append, String.length_append] at h2
  have h3 : ("ORD-" : String).length = 4 := rfl
  omega

theorem menuIncStock_isAvailable (id : Nat) (d : Int) (cs : List MenuItem) (i : Nat) :
    (((menuIncStock id d cs)[i]?).map (·.isAvailable)) = ((cs[i]?).map (·.isAvailable)) := by
  unfold menuIncStock
  rw [List.getElem?_map]
  cases h : cs[i]? with
  | none => rfl
  | some m => by_cases hid : m.id = id <;> simp [hid]

theorem foldl_menuIncStock_isAvailable (g : OrderLine → Int) (items : List OrderLine)
    (cs : List MenuItem) (i : Nat) :
    (((items.foldl (fun acc it => menuIncStock it.menuItem (g it) acc) cs)[i]?).map (·.isAvailable))
      = ((cs[i]?).map (·.isAvailable)) := by
  induction items generalizing cs with
  | nil => rfl
  | cons it its ih => rw [List.foldl_cons, ih, menuIncStock_isAvailable]

end SmartCanteen

namespace SmartCanteen

theorem scanHandler_success (qr : String) (now : Nat) (s s' : SysState)
    (h : scanHandler qr now s = .success s') :
    ∃ o0, s.orders.find? (fun o => o.qrCodeData == qr) = some o0 ∧ o0.status = .active ∧
      s' = { s with orders := (updateFirst (fun x => x.qrCodeData == qr)
        (fun x => orderPreSave now "" { x with status := .scanned, scannedAt := some now })
        s.orders) } := by
  unfold scanHandler at h
  cases hfind : s.orders.find? (fun o => o.qrCodeData == qr) with
  | none => rw [hfind] at h; exact absurd h (by simp)
  | some o0 =>
    rw [hfind] at h
    simp only at h
    by_cases hst : o0.status = OrderStatus.active
    · rw [if_neg (not_not_intro hst)] at h
      injection h with h'
      exact ⟨o0, rfl, hst, h'.symm⟩
    · rw [if_pos hst] at h
      exact absurd h (by simp)

theorem deliverHandler_success (oid : Nat) (now : Nat) (s s' : SysState)
    (h : deliverHandler oid now s = .success s') :
    ∃ o0, s.orders.find? (fun o => o.id == oid) = some o0 ∧ o0.status = .scanned ∧
      s' = { s with orders := (updateFirst (fun x => x.id == oid)
        (fun x => orderPreSave now "" { x with status := .delivered, deliveredAt := some now })
        s.orders) } := by
  unfold deliverHandler at h
  cases hfind : s.orders.find? (fun o => o.id == oid) with
  | none => rw [hfind] at h; exact absurd h (by simp)
  | some o0 =>
    rw [hfind] at h
    simp only at h
    by_cases hst : o0.status = OrderStatus.scanned
    · rw [if_neg (not_not_intro hst)] at h
      injection h with h'
      exact ⟨o0, rfl, hst, h'.symm⟩
    · rw [if_pos hst] at h
      exact absurd h (by simp)

theorem cancelHandler_success (oid : Nat) (now : Nat) (s s' : SysState)
    (h : cancelHandler oid now s = .success s') :
    ∃ o0, s.orders.find? (fun o => o.id == oid) = some o0 ∧
      o0.status ≠ .delivered ∧ o0.status ≠ .scanned ∧
      s' = { catalog := o0.items.foldl (fun cs it => menuIncStock it.menuItem it.quantity cs) s.catalog,
             orders := updateFirst (fun x => x.id == oid)
               (fun x => orderPreSave now "" { x with status := .cancelled }) s.orders } := by
  unfold cancelHandler at h
  cases hfind : s.orders.find? (fun o => o.id == oid) with
  | none => rw [hfind] at h; exact absurd h (by simp)
  | some o0 =>
    rw [hfind] at h
    simp only at h
    by_cases hst : o0.status = OrderStatus.delivered ∨ o0.status = OrderStatus.scanned
    · rw [if_pos hst] at h
      exact absurd h (by simp)
    · rw [if_neg hst] at h
      injection h with h'
      push_neg at hst
      exact ⟨o0, rfl, hst.1, hst.2, h'.symm⟩

theorem verifyHandler_success (r p sig : String) (now : Nat) (rand : String)
    (s s' : SysState) (qr : String)
    (h : verifyHandler r p sig now rand s = .success s' qr) :
    ∃ o0, s.orders.find? (fun o => o.razorpayOrderId == r) = some o0 ∧
      s' = { catalog := o0.items.foldl (fun cs it => menuIncStock it.menuItem (-it.quantity) cs) s.catalog,
             orders := updateFirst (fun x => x.razorpayOrderId == r)
               (fun x => orderPreSave now rand { x with paymentStatus := .completed, status := .active })
               s.orders } := by
  unfold verifyHandler at h
  rw [if_neg (by simp [isSignatureValid])] at h
  cases hfind : s.orders.find? (fun o => o.razorpayOrderId == r) with
  | none => rw [hfind] at h; exact absurd h (by simp)
  | some o0 =>
    rw [hfind] at h
    simp only at h
    injection h with h1 h2
    exact ⟨o0, rfl, h1.symm⟩

theorem checkoutHandler_success (sid : Nat) (lines : List CheckoutLine) (nid : Nat)
    (rzp : String) (now : Nat) (rand : String) (s s' : SysState) (ord : Order)
    (h : checkoutHandler sid lines nid rzp now rand s = .success s' ord) :
    ∃ total its, buildOrderItems s.catalog lines = .ok total its ∧
      ord = { id := nid, studentId := sid, items := its, totalAmount := total,
              razorpayOrderId := rzp, paymentStatus := .pending, qrCodeData := "",
              status := .pending_payment, scannedAt := none, deliveredAt := none,
              createdAt := now } ∧
      s' = { s with orders := s.orders ++ [ord] } := by
  unfold checkoutHandler at h
  by_cases hnil : lines = []
  · rw [if_pos hnil] at h
    exact absurd h (by simp)
  · rw [if_neg hnil] at h
    cases hbuild : buildOrderItems s.catalog lines with
    | itemNotFound => rw [hbuild] at h; exact absurd h (by simp)
    | lowStock nm => rw [hbuild] at h; exact absurd h (by simp)
    | ok total its =>
      rw [hbuild] at h
      simp only at h
      injection h with h1 h2
      refine ⟨total, its, rfl, ?_, ?_⟩
      · rw [← h2]
        exact orderPreSave_of_not_active now rand _ (fun hc => OrderStatus.noConfusion hc)
      · rw [← h1, ← h2]

end SmartCanteen

namespace SmartCanteen

theorem applyOp_checkout_orders (s : SysState) (sid : Nat) (lines : List CheckoutLine)
    (nid : Nat) (rzp : String) (now : Nat) (rand : String) (i : Nat) (o o' : Order)
    (h1 : s.orders[i]? = some o)
    (h2 : (applyOp s (.checkout sid lines nid rzp now rand)).orders[i]? = some o') :
    o' = o := by
  unfold applyOp at h2
  simp only at h2
  cases hc : checkoutHandler sid lines nid rzp now rand s with
  | success s2 ord =>
    rw [hc] at h2
    simp only at h2
    obtain ⟨total, its, hbuild, hord, hs2⟩ := checkoutHandler_success _ _ _ _ _ _ _ _ _ hc
    have horders : s2.orders = s.orders ++ [ord] := by rw [hs2]
    rw [horders] at h2
    have hlen : i < s.orders.length := (List.getElem?_eq_some.mp h1).1
    rw [List.getElem?_append_left hlen, h1] at h2
    exact (Option.some.inj h2).symm
  | noItems =>
    rw [hc] at h2
    simp only at h2
    rw [h1] at h2
    exact (Option.some.inj h2).symm
  | itemNotFound =>
    rw [hc] at h2
    simp only at h2
    rw [h1] at h2
    exact (Option.some.inj h2).symm
  | lowStock nm =>
    rw [hc] at h2
    simp only at h2
    rw [h1] at h2
    exact (Option.some.inj h2).symm

theorem applyOp_scan_orders (s : SysState) (qr : String) (now : Nat) (i : Nat) (o o' : Order)
    (h1 : s.orders[i]? = some o)
    (h2 : (applyOp s (.scan qr now)).orders[i]? = some o') :
    o' = o ∨ (o.status = .active ∧
      o' = { o with status := OrderStatus.scanned, scannedAt := some now }) := by
  unfold applyOp at h2
  simp only at h2
  cases hc : scanHandler qr now s with
  | failure code msg =>
    rw [hc] at h2
    simp only at h2
    rw [h1] at h2
    exact Or.inl (Option.some.inj h2).symm
  | success s2 =>
    rw [hc] at h2
    simp only at h2
    obtain ⟨o0, hfind, hst, hs2⟩ := scanHandler_success _ _ _ _ hc
    have horders : s2.orders = updateFirst (fun x => x.qrCodeData == qr)
        (fun x => orderPreSave now "" { x with status := OrderStatus.scanned, scannedAt := some now })
        s.orders := by rw [hs2]
    rw [horders] at h2
    rcases updateFirst_getElem? _ _ _ _ hfind i with hcase | ⟨hidx, hupd⟩
    · rw [hcase, h1] at h2
      exact Or.inl (Option.some.inj h2).symm
    · rw [h1] at hidx
      have ho : o = o0 := Option.some.inj hidx
      subst ho
      rw [hupd] at h2
      have h3 : o' = orderPreSave now ""
          { o with status := OrderStatus.scanned, scannedAt := some now } :=
        (Option.some.inj h2).symm
      rw [orderPreSave_of_not_active _ _ _ (fun hcc => OrderStatus.noConfusion hcc)] at h3
      exact Or.inr ⟨hst, h3⟩

theorem applyOp_deliver_orders (s : SysState) (oid : Nat) (now : Nat) (i : Nat) (o o' : Order)
    (h1 : s.orders[i]? = some o)
    (h2 : (applyOp s (.deliver oid now)).orders[i]? = some o') :
    o' = o ∨ (o.status = .scanned ∧
      o' = { o with status := OrderStatus.delivered, deliveredAt := some now }) := by
  unfold applyOp at h2
  simp only at h2
  cases hc : deliverHandler oid now s with
  | failure code msg =>
    rw [hc] at h2
    simp only at h2
    rw [h1] at h2
    exact Or.inl (Option.some.inj h2).symm
  | success s2 =>
    rw [hc] at h2
    simp only at h2
    obtain ⟨o0, hfind, hst, hs2⟩ := deliverHandler_success _ _ _ _ hc
    have horders : s2.orders = updateFirst (fun x => x.id == oid)
        (fun x => orderPreSave now "" { x with status := OrderStatus.delivered, deliveredAt := some now })
        s.orders := by rw [hs2]
    rw [horders] at h2
    rcases updateFirst_getElem? _ _ _ _ hfind i with hcase | ⟨hidx, hupd⟩
    · rw [hcase, h1] at h2
      exact Or.inl (Option.some.inj h2).symm
    · rw [h1] at hidx
      have ho : o = o0 := Option.some.inj hidx
      subst ho
      rw [hupd] at h2
      have h3 : o' = orderPreSave now ""
          { o with status := OrderStatus.delivered, deliveredAt := some now } :=
        (Option.some.inj h2).symm
      rw [orderPreSave_of_not_active _ _ _ (fun hcc => OrderStatus.noConfusion hcc)] at h3
      exact Or.inr ⟨hst, h3⟩

theorem applyOp_cancel_orders (s : SysState) (oid : Nat) (now : Nat) (i : Nat) (o o' : Order)
    (h1 : s.orders[i]? = some o)
    (h2 : (applyOp s (.cancel oid now)).orders[i]? = some o') :
    o' = o ∨ (o.status ≠ .delivered ∧ o.status ≠ .scanned ∧
      o' = { o with status := OrderStatus.cancelled }) := by
  unfold applyOp at h2
  simp only at h2
  cases hc : cancelHandler oid now s with
  | failure code msg =>
    rw [hc] at h2
    simp only at h2
    rw [h1] at h2
    exact Or.inl (Option.some.inj h2).symm
  | success s2 =>
    rw [hc] at h2
    simp only at h2
    obtain ⟨o0, hfind, hd, hsc, hs2⟩ := cancelHandler_success _ _ _ _ hc
    have horders : s2.orders = updateFirst (fun x => x.id == oid)
        (fun x => orderPreSave now "" { x with status := OrderStatus.cancelled })
        s.orders := by rw [hs2]
    rw [horders] at h2
    rcases updateFirst_getElem? _ _ _ _ hfind i with hcase | ⟨hidx, hupd⟩
    · rw [hcase, h1] at h2
      exact Or.inl (Option.some.inj h2).symm
    · rw [h1] at hidx
      have ho : o = o0 := Option.some.inj hidx
      subst ho
      rw [hupd] at h2
      have h3 : o' = orderPreSave now "" { o with status := OrderStatus.cancelled } :=
        (Option.some.inj h2).symm
      rw [orderPreSave_of_not_active _ _ _ (fun hcc => OrderStatus.noConfusion hcc)] at h3
      exact Or.inr ⟨hd, hsc, h3⟩

theorem applyOp_verify_orders (s : SysState) (r p sig : String) (now : Nat) (rand : String)
    (i : Nat) (o o' : Order)
    (h1 : s.orders[i]? = some o)
    (h2 : (applyOp s (.verify r p sig now rand)).orders[i]? = some o') :
    o' = o ∨ o' = orderPreSave now rand
      { o with paymentStatus := PaymentStatus.completed, status := OrderStatus.active } := by
  unfold applyOp at h2
  simp only at h2
  cases hc : verifyHandler r p sig now rand s with
  | verificationFailed =>
    rw [hc] at h2
    simp only at h2
    rw [h1] at h2
    exact Or.inl (Option.some.inj h2).symm
  | orderNotFound =>
    rw [hc] at h2
    simp only at h2
    rw [h1] at h2
    exact Or.inl (Option.some.inj h2).symm
  | success s2 qr =>
    rw [hc] at h2
    simp only at h2
    obtain ⟨o0, hfind, hs2⟩ := verifyHandler_success _ _ _ _ _ _ _ _ hc
    have horders : s2.orders = updateFirst (fun x => x.razorpayOrderId == r)
        (fun x => orderPreSave now rand
          { x with paymentStatus := PaymentStatus.completed, status := OrderStatus.active })
        s.orders := by rw [hs2]
    rw [horders] at h2
    rcases updateFirst_getElem? _ _ _ _ hfind i with hcase | ⟨hidx, hupd⟩
    · rw [hcase, h1] at h2
      exact Or.inl (Option.some.inj h2).symm
    · rw [h1] at hidx
      have ho : o = o0 := Option.some.inj hidx
      subst ho
      rw [hupd] at h2
      exact Or.inr (Option.some.inj h2).symm

end SmartCanteen

namespace SmartCanteen

theorem applyOp_catalog_isAvailable (s : SysState) (op : Op) (i : Nat) (itm itm' : MenuItem)
    (h1 : s.catalog[i]? = some itm)
    (h2 : (applyOp s op).catalog[i]? = some itm') :
    itm'.isAvailable = itm.isAvailable := by
  cases op with
  | checkout sid lines nid rzp now rand =>
    unfold applyOp at h2
    simp only at h2
    cases hc : checkoutHandler sid lines nid rzp now rand s with
    | success s2 ord =>
      rw [hc] at h2
      simp only at h2
      obtain ⟨total, its, hbuild, hord, hs2⟩ := checkoutHandler_success _ _ _ _ _ _ _ _ _ hc
      have hcat : s2.catalog = s.catalog := by rw [hs2]
      rw [hcat, h1] at h2
      rw [← Option.some.inj h2]
    | noItems =>
      rw [hc] at h2
      simp only at h2
      rw [h1] at h2
      rw [← Option.some.inj h2]
    | itemNotFound =>
      rw [hc] at h2
      simp only at h2
      rw [h1] at h2
      rw [← Option.some.inj h2]
    | lowStock nm =>
      rw [hc] at h2
      simp only at h2
      rw [h1] at h2
      rw [← Option.some.inj h2]
  | verify r p sig now rand =>
    unfold applyOp at h2
    simp only at h2
    cases hc : verifyHandler r p sig now rand s with
    | verificationFailed =>
      rw [hc] at h2
      simp only at h2
      rw [h1] at h2
      rw [← Option.some.inj h2]
    | orderNotFound =>
      rw [hc] at h2
      simp only at h2
      rw [h1] at h2
      rw [← Option.some.inj h2]
    | success s2 qr =>
      rw [hc] at h2
      simp only at h2
      obtain ⟨o0, hfind, hs2⟩ := verifyHandler_success _ _ _ _ _ _ _ _ hc
      have hcat : s2.catalog =
          o0.items.foldl (fun cs it => menuIncStock it.menuItem (-it.quantity) cs) s.catalog := by
        rw [hs2]
      rw [hcat] at h2
      have h3 : (Option.map (·.isAvailable) (some itm')) = (Option.map (·.isAvailable) (some itm)) := by
        rw [← h2, ← h1]
        exact foldl_menuIncStock_isAvailable (fun it => -it.quantity) o0.items s.catalog i
      exact Option.some.inj h3
  | scan qr now =>
    unfold applyOp at h2
    simp only at h2
    cases hc : scanHandler qr now s with
    | failure code msg =>
      rw [hc] at h2
      simp only at h2
      rw [h1] at h2
      rw [← Option.some.inj h2]
    | success s2 =>
      rw [hc] at h2
      simp only at h2
      obtain ⟨o0, hfind, hst, hs2⟩ := scanHandler_success _ _ _ _ hc
      have hcat : s2.catalog = s.catalog := by rw [hs2]
      rw [hcat, h1] at h2
      rw [← Option.some.inj h2]
  | deliver oid now =>
    unfold applyOp at h2
    simp only at h2
    cases hc : deliverHandler oid now s with
    | failure code msg =>
      rw [hc] at h2
      simp only at h2
      rw [h1] at h2
      rw [← Option.some.inj h2]
    | success s2 =>
      rw [hc] at h2
      simp only at h2
      obtain ⟨o0, hfind, hst, hs2⟩ := deliverHandler_success _ _ _ _ hc
      have hcat : s2.catalog = s.catalog := by rw [hs2]
      rw [hcat, h1] at h2
      rw [← Option.some.inj h2]
  | cancel oid now =>
    unfold applyOp at h2
    simp only at h2
    cases hc : cancelHandler oid now s with
    | failure code msg =>
      rw [hc] at h2
      simp only at h2
      rw [h1] at h2
      rw [← Option.some.inj h2]
    | success s2 =>
      rw [hc] at h2
      simp only at h2
      obtain ⟨o0, hfind, hd, hsc, hs2⟩ := cancelHandler_success _ _ _ _ hc
      have hcat : s2.catalog =
          o0.items.foldl (fun cs it => menuIncStock it.menuItem it.quantity cs) s.catalog := by
        rw [hs2]
      rw [hcat] at h2
      have h3 : (Option.map (·.isAvailable) (some itm')) = (Option.map (·.isAvailable) (some itm)) := by
        rw [← h2, ← h1]
        exact foldl_menuIncStock_isAvailable (fun it => it.quantity) o0.items s.catalog i
      exact Option.some.inj h3

end SmartCanteen

namespace SmartCanteen

theorem buildOrderItems_ok (catalog : List MenuItem) (lines : List CheckoutLine)
    (total : Int) (its : List OrderLine)
    (h : buildOrderItems catalog lines = .ok total its) :
    total = (its.map (fun l => l.price * l.quantity)).sum ∧
      ∀ l ∈ its, ∃ m, catalog.find? (fun mm => mm.id == l.menuItem) = some m ∧
        l.price = m.price ∧ l.itemName = m.itemName := by
  induction lines generalizing total its with
  | nil =>
    unfold buildOrderItems at h
    injection h with ht hits
    subst ht
    subst hits
    simp
  | cons l ls ih =>
    unfold buildOrderItems at h
    cases hfind : catalog.find? (fun m => m.id == l.menuItem) with
    | none =>
      rw [hfind] at h
      simp only at h
      exact absurd h (by simp)
    | some m =>
      rw [hfind] at h
      simp only at h
      by_cases hq : m.stockCount < l.quantity
      · rw [if_pos hq] at h
        exact absurd h (by simp)
      · rw [if_neg hq] at h
        cases hrec : buildOrderItems catalog ls with
        | itemNotFound =>
          rw [hrec] at h
          simp only at h
          exact absurd h (by simp)
        | lowStock nm =>
          rw [hrec] at h
          simp only at h
          exact absurd h (by simp)
        | ok t rest =>
          rw [hrec] at h
          simp only at h
          obtain ⟨iht, ihsnap⟩ := ih t rest hrec
          injection h with ht hits
          subst ht
          subst hits
          have hmid : m.id = l.menuItem := by
            have := List.find?_some hfind
            simpa using this
          constructor
          · simp [iht]
          · intro l' hl'
            rcases List.mem_cons.mp hl' with rfl | hmem
            · show ∃ m', catalog.find? (fun mm => mm.id == m.id) = some m' ∧
                m.price = m'.price ∧ m.itemName = m'.itemName
              rw [hmid]
              exact ⟨m, hfind, rfl, rfl⟩
            · exact ihsnap l' hmem

theorem buildOrderItems_lowStock (catalog : List MenuItem) (lines : List CheckoutLine)
    (hall : ∀ l ∈ lines, ∃ m, catalog.find? (fun mm => mm.id == l.menuItem) = some m)
    (hlow : ∃ l ∈ lines, ∃ m, catalog.find? (fun mm => mm.id == l.menuItem) = some m ∧
      m.stockCount < l.quantity) :
    ∃ nm, buildOrderItems catalog lines = .lowStock nm := by
  induction lines with
  | nil =>
    rcases hlow with ⟨l, hl, _⟩
    simp at hl
  | cons l ls ih =>
    obtain ⟨m, hm⟩ := hall l (List.mem_cons_self _ _)
    by_cases hq : m.stockCount < l.quantity
    · refine ⟨m.itemName, ?_⟩
      unfold buildOrderItems
      rw [hm]
      simp only
      rw [if_pos hq]
    · have hlow' : ∃ l' ∈ ls, ∃ m', catalog.find? (fun mm => mm.id == l'.menuItem) = some m' ∧
          m'.stockCount < l'.quantity := by
        rcases hlow with ⟨l', hl', m', hm', hq'⟩
        rcases List.mem_cons.mp hl' with rfl | hmem
        · rw [hm] at hm'
          rw [← Option.some.inj hm'] at hq'
          exact absurd hq' hq
        · exact ⟨l', hmem, m', hm', hq'⟩
      obtain ⟨nm, hnm⟩ := ih (fun l' hl' => hall l' (List.mem_cons_of_mem _ hl')) hlow'
      refine ⟨nm, ?_⟩
      unfold buildOrderItems
      rw [hm]
      simp only
      rw [if_neg hq, hnm]

end SmartCanteen

namespace SmartCanteen

/-- C1 (amended): Scan, Deliver, Cancel and Checkout move every stored
order only along the defined transitions (in particular never out of
`cancelled`, and never out of `scanned`/`delivered` except the defined
forward one), but VerifyPayment performs no lifecycle-state check: it
sets the status of the order found by payment reference to `active`
whatever its previous state was. -/
theorem claim1_lifecycle_transitions :
    (∀ (s : SysState) (sid : Nat) (lines : List CheckoutLine) (nid : Nat) (rzp : String)
        (now : Nat) (rand : String) (i : Nat) (o o' : Order), s.orders[i]? = some o →
        (applyOp s (.checkout sid lines nid rzp now rand)).orders[i]? = some o' →
        statusStep o.status o'.status) ∧
    (∀ (s : SysState) (qr : String) (now i : Nat) (o o' : Order), s.orders[i]? = some o →
        (applyOp s (.scan qr now)).orders[i]? = some o' →
        statusStep o.status o'.status) ∧
    (∀ (s : SysState) (oid now i : Nat) (o o' : Order), s.orders[i]? = some o →
        (applyOp s (.deliver oid now)).orders[i]? = some o' →
        statusStep o.status o'.status) ∧
    (∀ (s : SysState) (oid now i : Nat) (o o' : Order), s.orders[i]? = some o →
        (applyOp s (.cancel oid now)).orders[i]? = some o' →
        statusStep o.status o'.status) ∧
    (∀ (s : SysState) (r p sig : String) (now : Nat) (rand : String) (i : Nat) (o o' : Order),
        s.orders[i]? = some o →
        (applyOp s (.verify r p sig now rand)).orders[i]? = some o' →
        o'.status = o.status ∨ o'.status = OrderStatus.active) := by
  refine ⟨?_, ?_, ?_, ?_, ?_⟩
  · intro s sid lines nid rzp now rand i o o' h1 h2
    rw [applyOp_checkout_orders s sid lines nid rzp now rand i o o' h1 h2]
    exact Or.inl rfl
  · intro s qr now i o o' h1 h2
    rcases applyOp_scan_orders s qr now i o o' h1 h2 with rfl | ⟨hst, rfl⟩
    · exact Or.inl rfl
    · exact Or.inr (Or.inr (Or.inl ⟨hst, rfl⟩))
  · intro s oid now i o o' h1 h2
    rcases applyOp_deliver_orders s oid now i o o' h1 h2 with rfl | ⟨hst, rfl⟩
    · exact Or.inl rfl
    · exact Or.inr (Or.inr (Or.inr (Or.inl ⟨hst, rfl⟩)))
  · intro s oid now i o o' h1 h2
    rcases applyOp_cancel_orders s oid now i o o' h1 h2 with rfl | ⟨hd, hsc, rfl⟩
    · exact Or.inl rfl
    · cases ho : o.status with
      | pending_payment => exact Or.inr (Or.inr (Or.inr (Or.inr ⟨Or.inl rfl, rfl⟩)))
      | active => exact Or.inr (Or.inr (Or.inr (Or.inr ⟨Or.inr rfl, rfl⟩)))
      | cancelled => exact Or.inl rfl
      | delivered => exact absurd ho hd
      | scanned => exact absurd ho hsc
  · intro s r p sig now rand i o o' h1 h2
    rcases applyOp_verify_orders s r p sig now rand i o o' h1 h2 with rfl | rfl
    · exact Or.inl rfl
    · exact Or.inr (by rw [orderPreSave_status])

/-- C1 counterexample: after checkout, verify and cancel, the single
order is `cancelled`; verifying the same payment handle once more moves
it back to `active`, a transition the claimed state machine forbids. -/
theorem claim1_counterexample :
    ((runOps initState c1Trace).orders.map (fun o => o.status) = [OrderStatus.cancelled]) ∧
    ((applyOp (runOps initState c1Trace) (.verify "r1" "pay1" "sig1" 5 "ab")).orders.map
        (fun o => o.status) = [OrderStatus.active]) ∧
    ¬ statusStep OrderStatus.cancelled OrderStatus.active := by
  refine ⟨by decide, by decide, by decide⟩

/-- C1 witness: each conjunct of the transition theorem applied at a
concrete state. -/
theorem claim1_witness :
    (wState.orders[0]? = some wActiveOrder ∧
      (applyOp wState (.checkout 9 [⟨1, 1⟩] 2 "rX" 0 "")).orders[0]? = some wActiveOrder ∧
      statusStep wActiveOrder.status wActiveOrder.status) ∧
    ((applyOp wState (.scan "t" 5)).orders[0]? = some wScannedOrder ∧
      statusStep wActiveOrder.status wScannedOrder.status) ∧
    (wScanState.orders[0]? = some wScannedOrder ∧
      (applyOp wScanState (.deliver 1 6)).orders[0]? = some wDeliveredOrder ∧
      statusStep wScannedOrder.status wDeliveredOrder.status) ∧
    ((applyOp wState (.cancel 1 7)).orders[0]? = some wCancelledOrder ∧
      statusStep wActiveOrder.status wCancelledOrder.status) ∧
    ((applyOp wState (.verify "rW" "pay" "sig" 9 "zz")).orders[0]? = some wVerifiedOrder ∧
      (wVerifiedOrder.status = wActiveOrder.status ∨
        wVerifiedOrder.status = OrderStatus.active)) :=
  ⟨⟨by decide, by decide,
      claim1_lifecycle_transitions.1 wState 9 [⟨1, 1⟩] 2 "rX" 0 "" 0 wActiveOrder wActiveOrder
        (by decide) (by decide)⟩,
    ⟨by decide,
      claim1_lifecycle_transitions.2.1 wState "t" 5 0 wActiveOrder wScannedOrder
        (by decide) (by decide)⟩,
    ⟨by decide, by decide,
      claim1_lifecycle_transitions.2.2.1 wScanState 1 6 0 wScannedOrder wDeliveredOrder
        (by decide) (by decide)⟩,
    ⟨by decide,
      claim1_lifecycle_transitions.2.2.2.1 wState 1 7 0 wActiveOrder wCancelledOrder
        (by decide) (by decide)⟩,
    ⟨by decide,
      claim1_lifecycle_transitions.2.2.2.2 wState "rW" "pay" "sig" 9 "zz" 0 wActiveOrder
        wVerifiedOrder (by decide) (by decide)⟩⟩

end SmartCanteen

namespace SmartCanteen

/-- C2 (code bug): starting from a catalog whose only item has
stockCount 1 (all stock non-negative), two checkouts of one unit each
pass the stock check, and verifying both orders decrements the stock
twice with no underflow guard, driving stockCount to -1 instead of
failing. -/
theorem claim2_stock_goes_negative :
    (oneStockState.catalog.map (fun m => m.stockCount) = [1]) ∧
    ((runOps oneStockState c2Trace).catalog.map (fun m => m.stockCount) = [-1]) := by
  refine ⟨by decide, by decide⟩

/-- C3 (code bug): the verify handler hardcodes the signature check to
true (the "TEMPORARY BYPASS FOR TESTING"), so no confirmation proof is
ever validated: verification never fails with
PaymentVerificationFailed whatever the proof, and a request carrying a
garbage signature succeeds. -/
theorem claim3_signature_bypass :
    isSignatureValid = true ∧
    (∀ (rzp pid sig : String) (now : Nat) (rand : String) (s : SysState),
      (∃ s' qr, verifyHandler rzp pid sig now rand s = .success s' qr) ∨
        verifyHandler rzp pid sig now rand s = .orderNotFound) ∧
    (verifyHandler "rA" "pay_x" "garbage_signature" 1 "ab" c3State).isSuccess = true := by
  refine ⟨rfl, ?_, by decide⟩
  intro rzp pid sig now rand s
  unfold verifyHandler
  rw [if_neg (by simp [isSignatureValid])]
  cases hfind : s.orders.find? (fun o => o.razorpayOrderId == rzp) with
  | none => exact Or.inr rfl
  | some o0 => exact Or.inl ⟨_, _, rfl⟩

/-- C6 (code bug): cancelling an order still in pending_payment (whose
stock was never decremented) increments stockCount anyway: after a
checkout of two units the stock is still 5, and Cancel inflates it to 7
instead of leaving it unchanged. -/
theorem claim6_cancel_inflates_pending_stock :
    ((runOps initState c6Trace).orders.map (fun o => o.status) = [OrderStatus.pending_payment]) ∧
    ((runOps initState c6Trace).catalog.map (fun m => m.stockCount) = [5]) ∧
    ((applyOp (runOps initState c6Trace) (.cancel 1 1)).catalog.map (fun m => m.stockCount)
      = [7]) := by
  refine ⟨by decide, by decide, by decide⟩

end SmartCanteen

namespace SmartCanteen

/-- C4 counterexample: the schema sets `unique: false` on qrCodeData,
and two orders verified at the same millisecond with the same random
bytes receive the very same (non-empty) redemption token — no
uniqueness constraint rejects the second write. -/
theorem claim4_counterexample :
    qrCodeDataUnique = false ∧
    ((runOps initState c4Trace).orders.map (fun o => o.qrCodeData)
      = ["ORD-5-ab", "ORD-5-ab"]) ∧
    ("ORD-5-ab" : String) ≠ "" := by
  refine ⟨rfl, by decide, by decide⟩

/-- C4 (amended): an order's qrCodeData stays empty while it is in
pending_payment (the property is preserved by every operation), a
non-empty token is never modified by any operation, and the verify
transition stamps a non-empty token on the found order whenever its
token is empty; but the schema sets `unique: false`, so no uniqueness
constraint exists and token uniqueness rests solely on the
timestamp-plus-randomness construction. -/
theorem claim4_token_lifecycle :
    (∀ (s : SysState) (op : Op) (i : Nat) (o o' : Order), s.orders[i]? = some o →
        (applyOp s op).orders[i]? = some o' →
        o.qrCodeData ≠ "" → o'.qrCodeData = o.qrCodeData) ∧
    (∀ (s : SysState) (op : Op),
        (∀ o ∈ s.orders, o.status = OrderStatus.pending_payment → o.qrCodeData = "") →
        ∀ o' ∈ (applyOp s op).orders, o'.status = OrderStatus.pending_payment →
          o'.qrCodeData = "") ∧
    (∀ (s : SysState) (r p sig : String) (now : Nat) (rand : String) (i : Nat) (o o' : Order),
        s.orders[i]? = some o →
        (applyOp s (.verify r p sig now rand)).orders[i]? = some o' →
        o.qrCodeData = "" → o' = o ∨ o'.qrCodeData ≠ "") := by
  refine ⟨?_, ?_, ?_⟩
  · intro s op i o o' h1 h2 hqr
    cases op with
    | checkout sid lines nid rzp now rand =>
      rw [applyOp_checkout_orders s sid lines nid rzp now rand i o o' h1 h2]
    | scan qr now =>
      rcases applyOp_scan_orders s qr now i o o' h1 h2 with rfl | ⟨hst, rfl⟩
      · rfl
      · rfl
    | deliver oid now =>
      rcases applyOp_deliver_orders s oid now i o o' h1 h2 with rfl | ⟨hst, rfl⟩
      · rfl
      · rfl
    | cancel oid now =>
      rcases applyOp_cancel_orders s oid now i o o' h1 h2 with rfl | ⟨hd, hsc, rfl⟩
      · rfl
      · rfl
    | verify r p sig now rand =>
      rcases applyOp_verify_orders s r p sig now rand i o o' h1 h2 with rfl | rfl
      · rfl
      · exact orderPreSave_qr_of_ne now rand _ hqr
  · intro s op hinv o' hmem hpend
    cases op with
    | checkout sid lines nid rzp now rand =>
      revert hmem
      unfold applyOp
      simp only
      cases hc : checkoutHandler sid lines nid rzp now rand s with
      | success s2 ord =>
        intro hmem
        obtain ⟨total, its, hbuild, hord, hs2⟩ := checkoutHandler_success _ _ _ _ _ _ _ _ _ hc
        have horders : s2.orders = s.orders ++ [ord] := by rw [hs2]
        rw [horders] at hmem
        rcases List.mem_append.mp hmem with h | h
        · exact hinv o' h hpend
        · have hcp : o' = ord := by simpa using h
          subst hcp
          rw [hord]
      | noItems => exact fun hmem => hinv o' hmem hpend
      | itemNotFound => exact fun hmem => hinv o' hmem hpend
      | lowStock nm => exact fun hmem => hinv o' hmem hpend
    | verify r p sig now rand =>
      revert hmem
      unfold applyOp
      simp only
      cases hc : verifyHandler r p sig now rand s with
      | success s2 qr =>
        intro hmem
        obtain ⟨o0, hfind, hs2⟩ := verifyHandler_success _ _ _ _ _ _ _ _ hc
        have horders : s2.orders = updateFirst (fun x => x.razorpayOrderId == r)
            (fun x => orderPreSave now rand
              { x with paymentStatus := PaymentStatus.completed, status := OrderStatus.active })
            s.orders := by rw [hs2]
        rw [horders] at hmem
        rcases mem_updateFirst _ _ _ _ hmem with h | ⟨a, ha, hfa⟩
        · exact hinv o' h hpend
        · subst hfa
          rw [orderPreSave_status] at hpend
          simp at hpend
      | verificationFailed => exact fun hmem => hinv o' hmem hpend
      | orderNotFound => exact fun hmem => hinv o' hmem hpend
    | scan qr now =>
      revert hmem
      unfold applyOp
      simp only
      cases hc : scanHandler qr now s with
      | success s2 =>
        intro hmem
        obtain ⟨o0, hfind, hst, hs2⟩ := scanHandler_success _ _ _ _ hc
        have horders : s2.orders = updateFirst (fun x => x.qrCodeData == qr)
            (fun x => orderPreSave now ""
              { x with status := OrderStatus.scanned, scannedAt := some now })
            s.orders := by rw [hs2]
        rw [horders] at hmem
        rcases mem_updateFirst _ _ _ _ hmem with h | ⟨a, ha, hfa⟩
        · exact hinv o' h hpend
        · subst hfa
          rw [orderPreSave_status] at hpend
          simp at hpend
      | failure code msg => exact fun hmem => hinv o' hmem hpend
    | deliver oid now =>
      revert hmem
      unfold applyOp
      simp only
      cases hc : deliverHandler oid now s with
      | success s2 =>
        intro hmem
        obtain ⟨o0, hfind, hst, hs2⟩ := deliverHandler_success _ _ _ _ hc
        have horders : s2.orders = updateFirst (fun x => x.id == oid)
            (fun x => orderPreSave now ""
              { x with status := OrderStatus.delivered, deliveredAt := some now })
            s.orders := by rw [hs2]
        rw [horders] at hmem
        rcases mem_updateFirst _ _ _ _ hmem with h | ⟨a, ha, hfa⟩
        · exact hinv o' h hpend
        · subst hfa
          rw [orderPreSave_status] at hpend
          simp at hpend
      | failure code msg => exact fun hmem => hinv o' hmem hpend
    | cancel oid now =>
      revert hmem
      unfold applyOp
      simp only
      cases hc : cancelHandler oid now s with
      | success s2 =>
        intro hmem
        obtain ⟨o0, hfind, hd, hsc, hs2⟩ := cancelHandler_success _ _ _ _ hc
        have horders : s2.orders = updateFirst (fun x => x.id == oid)
            (fun x => orderPreSave now "" { x with status := OrderStatus.cancelled })
            s.orders := by rw [hs2]
        rw [horders] at hmem
        rcases mem_updateFirst _ _ _ _ hmem with h | ⟨a, ha, hfa⟩
        · exact hinv o' h hpend
        · subst hfa
          rw [orderPreSave_status] at hpend
          simp at hpend
      | failure code msg => exact fun hmem => hinv o' hmem hpend
  · intro s r p sig now rand i o o' h1 h2 hqr
    rcases applyOp_verify_orders s r p sig now rand i o o' h1 h2 with rfl | rfl
    · exact Or.inl rfl
    · refine Or.inr ?_
      rw [orderPreSave_qr_of_active_empty now rand
        { o with paymentStatus := PaymentStatus.completed, status := OrderStatus.active } rfl hqr]
      exact qrToken_ne_empty now rand

/-- C4 witness: the three conjuncts of the token-lifecycle theorem
applied at concrete states. -/
theorem claim4_witness :
    ((applyOp wState (.scan "t" 5)).orders[0]? = some wScannedOrder ∧
      wActiveOrder.qrCodeData ≠ "" ∧
      wScannedOrder.qrCodeData = wActiveOrder.qrCodeData) ∧
    ((∀ o ∈ wState.orders, o.status = OrderStatus.pending_payment → o.qrCodeData = "") ∧
      (∀ o' ∈ (applyOp wState (.scan "t" 5)).orders,
        o'.status = OrderStatus.pending_payment → o'.qrCodeData = "")) ∧
    ((applyOp c3State (.verify "rA" "pay_x" "garbage_signature" 1 "ab")).orders[0]?
        = some c3VerifiedOrder ∧
      c3Order.qrCodeData = "" ∧
      (c3VerifiedOrder = c3Order ∨ c3VerifiedOrder.qrCodeData ≠ "")) :=
  ⟨⟨by decide, by decide,
      claim4_token_lifecycle.1 wState (.scan "t" 5) 0 wActiveOrder wScannedOrder
        (by decide) (by decide) (by decide)⟩,
    ⟨by decide,
      claim4_token_lifecycle.2.1 wState (.scan "t" 5) (by decide)⟩,
    ⟨by decide, by decide,
      claim4_token_lifecycle.2.2 c3State "rA" "pay_x" "garbage_signature" 1 "ab" 0
        c3Order c3VerifiedOrder (by decide) (by decide) (by decide)⟩⟩

end SmartCanteen

namespace SmartCanteen

/-- C5 counterexample: the token "ORD-1-ab" scans successfully once;
after re-verifying the same payment handle (which resets the scanned
order to active with no state check) the very same token scans
successfully a second time, so a later Scan of a once-scanned token can
succeed. -/
theorem claim5_counterexample :
    ((scanHandler "ORD-1-ab" 3 (runOps initState c5TraceA)).isSuccess = true) ∧
    ((scanHandler "ORD-1-ab" 7 (runOps initState c5TraceB)).isSuccess = true) := by
  refine ⟨by decide, by decide⟩

/-- C5 (amended): immediately after a successful Scan, scanning the same
token again fails with 400 "Order is scanned" (and in general a Scan of
a token whose order is not active fails with 400 "Order is <status>",
reflecting the current state), and a Scan with no matching order fails
with 404 "Invalid QR code"; but a later Scan can succeed again if an
intervening VerifyPayment resets the order to active. -/
theorem claim5_scan_single_use :
    (∀ (s s' : SysState) (qr : String) (now now' : Nat),
        scanHandler qr now s = .success s' →
        scanHandler qr now' s' = .failure 400 ("Order is " ++ statusString OrderStatus.scanned)) ∧
    (∀ (s : SysState) (qr : String) (now : Nat),
        s.orders.find? (fun o => o.qrCodeData == qr) = none →
        scanHandler qr now s = .failure 404 "Invalid QR code") ∧
    (∀ (s : SysState) (qr : String) (now : Nat) (o : Order),
        s.orders.find? (fun o => o.qrCodeData == qr) = some o →
        o.status ≠ OrderStatus.active →
        scanHandler qr now s = .failure 400 ("Order is " ++ statusString o.status)) := by
  refine ⟨?_, ?_, ?_⟩
  · intro s s' qr now now' hsuc
    obtain ⟨o0, hfind, hst, hs2⟩ := scanHandler_success _ _ _ _ hsuc
    have horders : s'.orders = updateFirst (fun x => x.qrCodeData == qr)
        (fun x => orderPreSave now ""
          { x with status := OrderStatus.scanned, scannedAt := some now })
        s.orders := by rw [hs2]
    have hp0 : ((fun x : Order => x.qrCodeData == qr)
        (orderPreSave now "" { o0 with status := OrderStatus.scanned, scannedAt := some now }))
        = true := by
      rw [orderPreSave_of_not_active _ _ _ (fun hcc => OrderStatus.noConfusion hcc)]
      simpa using List.find?_some hfind
    have hfind' : s'.orders.find? (fun x => x.qrCodeData == qr) =
        some (orderPreSave now "" { o0 with status := OrderStatus.scanned, scannedAt := some now }) := by
      rw [horders]
      exact find?_updateFirst _ _ _ _ hfind hp0
    rw [orderPreSave_of_not_active _ _ _ (fun hcc => OrderStatus.noConfusion hcc)] at hfind'
    unfold scanHandler
    rw [hfind']
    simp [statusString]
  · intro s qr now hfind
    unfold scanHandler
    rw [hfind]
  · intro s qr now o hfind hne
    unfold scanHandler
    rw [hfind]
    simp only
    rw [if_pos hne]

/-- C5 witness: the three conjuncts of the single-use theorem applied at
concrete states. -/
theorem claim5_witness :
    ((scanHandler "t" 5 wState = .success wScanState) ∧
      scanHandler "t" 9 wScanState
        = .failure 400 ("Order is " ++ statusString OrderStatus.scanned)) ∧
    ((initState.orders.find? (fun o => o.qrCodeData == "zz") = none) ∧
      scanHandler "zz" 1 initState = .failure 404 "Invalid QR code") ∧
    ((wScanState.orders.find? (fun o => o.qrCodeData == "t") = some wScannedOrder) ∧
      wScannedOrder.status ≠ OrderStatus.active ∧
      scanHandler "t" 2 wScanState
        = .failure 400 ("Order is " ++ statusString wScannedOrder.status)) :=
  ⟨⟨by decide,
      claim5_scan_single_use.1 wState wScanState "t" 5 9 (by decide)⟩,
    ⟨by decide,
      claim5_scan_single_use.2.1 initState "zz" 1 (by decide)⟩,
    ⟨by decide, by decide,
      claim5_scan_single_use.2.2 wScanState "t" 2 wScannedOrder (by decide) (by decide)⟩⟩

end SmartCanteen

namespace SmartCanteen

/-- C7: for every successful checkout the created order's totalAmount
equals the sum of quantity times unit price over its line items, each
line's price and name being snapshotted from the catalog item found at
order time; and no operation ever changes the totalAmount of a stored
order afterwards. -/
theorem claim7_total_amount :
    (∀ (sid : Nat) (lines : List CheckoutLine) (nid : Nat) (rzp : String) (now : Nat)
        (rand : String) (s s' : SysState) (ord : Order),
        checkoutHandler sid lines nid rzp now rand s = .success s' ord →
        ord.totalAmount = (ord.items.map (fun l => l.price * l.quantity)).sum ∧
        (∀ l ∈ ord.items, ∃ m, s.catalog.find? (fun mm => mm.id == l.menuItem) = some m ∧
          l.price = m.price ∧ l.itemName = m.itemName) ∧
        s'.orders = s.orders ++ [ord]) ∧
    (∀ (s : SysState) (op : Op) (i : Nat) (o o' : Order), s.orders[i]? = some o →
        (applyOp s op).orders[i]? = some o' → o'.totalAmount = o.totalAmount) := by
  constructor
  · intro sid lines nid rzp now rand s s' ord h
    obtain ⟨total, its, hbuild, hord, hs2⟩ := checkoutHandler_success _ _ _ _ _ _ _ _ _ h
    obtain ⟨ht, hsnap⟩ := buildOrderItems_ok _ _ _ _ hbuild
    subst hord
    refine ⟨ht, hsnap, ?_⟩
    rw [hs2]
  · intro s op i o o' h1 h2
    cases op with
    | checkout sid lines nid rzp now rand =>
      rw [applyOp_checkout_orders s sid lines nid rzp now rand i o o' h1 h2]
    | scan qr now =>
      rcases applyOp_scan_orders s qr now i o o' h1 h2 with rfl | ⟨hst, rfl⟩
      · rfl
      · rfl
    | deliver oid now =>
      rcases applyOp_deliver_orders s oid now i o o' h1 h2 with rfl | ⟨hst, rfl⟩
      · rfl
      · rfl
    | cancel oid now =>
      rcases applyOp_cancel_orders s oid now i o o' h1 h2 with rfl | ⟨hd, hsc, rfl⟩
      · rfl
      · rfl
    | verify r p sig now rand =>
      rcases applyOp_verify_orders s r p sig now rand i o o' h1 h2 with rfl | rfl
      · rfl
      · exact (orderPreSave_fields now rand _).2.2.2.1

/-- C7 witness: the two conjuncts of the totalAmount theorem applied at
a concrete checkout and a concrete scan. -/
theorem claim7_witness :
    ((checkoutHandler 7 [⟨1, 2⟩] 1 "r7" 0 "" initState = .success c7State c7Order) ∧
      c7Order.totalAmount = (c7Order.items.map (fun l => l.price * l.quantity)).sum ∧
      (∀ l ∈ c7Order.items, ∃ m,
        initState.catalog.find? (fun mm => mm.id == l.menuItem) = some m ∧
        l.price = m.price ∧ l.itemName = m.itemName) ∧
      c7State.orders = initState.orders ++ [c7Order]) ∧
    ((applyOp wState (.scan "t" 5)).orders[0]? = some wScannedOrder ∧
      wScannedOrder.totalAmount = wActiveOrder.totalAmount) :=
  ⟨⟨by decide,
      claim7_total_amount.1 7 [⟨1, 2⟩] 1 "r7" 0 "" initState c7State c7Order (by decide)⟩,
    ⟨by decide,
      claim7_total_amount.2 wState (.scan "t" 5) 0 wActiveOrder wScannedOrder
        (by decide) (by decide)⟩⟩

/-- C8: when every requested item exists and some requested quantity
exceeds that item's stockCount, checkout fails with the low-stock
error; and checkout never writes the catalog at all, so no stock is
decremented (in particular no partial decrement) at checkout time. -/
theorem claim8_insufficient_stock :
    (∀ (sid : Nat) (lines : List CheckoutLine) (nid : Nat) (rzp : String) (now : Nat)
        (rand : String) (s : SysState),
        (∀ l ∈ lines, ∃ m, s.catalog.find? (fun mm => mm.id == l.menuItem) = some m) →
        (∃ l ∈ lines, ∃ m, s.catalog.find? (fun mm => mm.id == l.menuItem) = some m ∧
          m.stockCount < l.quantity) →
        ∃ nm, checkoutHandler sid lines nid rzp now rand s = .lowStock nm) ∧
    (∀ (s : SysState) (sid : Nat) (lines : List CheckoutLine) (nid : Nat) (rzp : String)
        (now : Nat) (rand : String),
        (applyOp s (.checkout sid lines nid rzp now rand)).catalog = s.catalog) := by
  constructor
  · intro sid lines nid rzp now rand s hall hlow
    have hne : lines ≠ [] := by
      rcases hlow with ⟨l, hl, _⟩
      intro hnil
      rw [hnil] at hl
      simp at hl
    obtain ⟨nm, hnm⟩ := buildOrderItems_lowStock s.catalog lines hall hlow
    refine ⟨nm, ?_⟩
    unfold checkoutHandler
    rw [if_neg hne, hnm]
  · intro s sid lines nid rzp now rand
    unfold applyOp
    simp only
    cases hc : checkoutHandler sid lines nid rzp now rand s with
    | success s2 ord =>
      obtain ⟨total, its, hbuild, hord, hs2⟩ := checkoutHandler_success _ _ _ _ _ _ _ _ _ hc
      rw [hs2]
    | noItems => rfl
    | itemNotFound => rfl
    | lowStock nm => rfl

/-- C8 witness: a checkout requesting six units of an item with five in
stock fails with the low-stock error, and the catalog is untouched. -/
theorem claim8_witness :
    ((∀ l ∈ [(⟨1, 6⟩ : CheckoutLine)], ∃ m,
        initState.catalog.find? (fun mm => mm.id == l.menuItem) = some m) ∧
      (∃ l ∈ [(⟨1, 6⟩ : CheckoutLine)], ∃ m,
        initState.catalog.find? (fun mm => mm.id == l.menuItem) = some m ∧
        m.stockCount < l.quantity) ∧
      (∃ nm, checkoutHandler 7 [⟨1, 6⟩] 1 "r8" 0 "" initState = .lowStock nm)) ∧
    ((applyOp initState (.checkout 7 [⟨1, 6⟩] 1 "r8" 0 "")).catalog = initState.catalog) :=
  ⟨⟨by
      intro l hl
      rw [List.mem_singleton] at hl
      subst hl
      exact ⟨teaItem, by decide⟩,
     ⟨⟨1, 6⟩, by decide, teaItem, by decide, by decide⟩,
      claim8_insufficient_stock.1 7 [⟨1, 6⟩] 1 "r8" 0 "" initState
        (by
          intro l hl
          rw [List.mem_singleton] at hl
          subst hl
          exact ⟨teaItem, by decide⟩)
        ⟨⟨1, 6⟩, by decide, teaItem, by decide, by decide⟩⟩,
    claim8_insufficient_stock.2 initState 7 [⟨1, 6⟩] 1 "r8" 0 ""⟩

end SmartCanteen

namespace SmartCanteen

/-- C9 counterexample: verifying the order for the last unit in stock
drives stockCount to 0 through findByIdAndUpdate's `$inc`, which
bypasses the pre-save hook, so isAvailable stays true although
stockCount > 0 is now false. -/
theorem claim9_counterexample :
    ((runOps oneStockState c9Trace).catalog.map (fun m => (m.stockCount, m.isAvailable))
      = [((0 : Int), true)]) ∧
    (decide ((0 : Int) > 0) = false) := by
  refine ⟨by decide, by decide⟩

/-- C9 (amended): isAvailable is recomputed as stockCount > 0 only by
the menu pre-save hook (run on document save); the `$inc` stock updates
issued by VerifyPayment and Cancel (and every other lifecycle
operation) leave every catalog item's isAvailable unchanged, so the
derived-value invariant is not maintained by stock changes. -/
theorem claim9_available_stale :
    (∀ (now : Nat) (m : MenuItem), (menuPreSave now m).isAvailable = decide (m.stockCount > 0)) ∧
    (∀ (s : SysState) (op : Op) (i : Nat) (itm itm' : MenuItem),
        s.catalog[i]? = some itm → (applyOp s op).catalog[i]? = some itm' →
        itm'.isAvailable = itm.isAvailable) := by
  constructor
  · intro now m
    rfl
  · intro s op i itm itm' h1 h2
    exact applyOp_catalog_isAvailable s op i itm itm' h1 h2

/-- C9 witness: the stale-availability theorem applied at a concrete
verification that empties the stock. -/
theorem claim9_witness :
    ((menuPreSave 3 teaItem).isAvailable = decide (teaItem.stockCount > 0)) ∧
    ((oneStockState.catalog[0]? = some { teaItem with stockCount := 1 }) ∧
      ((applyOp (runOps oneStockState [.checkout 7 [⟨1, 1⟩] 1 "r9" 0 ""])
          (.verify "r9" "pay9" "sig9" 1 "zz")).catalog[0]?
        = some { teaItem with stockCount := 0 }) ∧
      ({ teaItem with stockCount := 0 } : MenuItem).isAvailable
        = ({ teaItem with stockCount := 1 } : MenuItem).isAvailable) :=
  ⟨claim9_available_stale.1 3 teaItem,
    ⟨by decide, by decide,
      claim9_available_stale.2 (runOps oneStockState [.checkout 7 [⟨1, 1⟩] 1 "r9" 0 ""])
        (.verify "r9" "pay9" "sig9" 1 "zz") 0
        { teaItem with stockCount := 1 } { teaItem with stockCount := 0 }
        (by decide) (by decide)⟩⟩

/-- C10: a successful Scan leaves the catalog unchanged and changes the
matched order only in its status and scannedAt fields (every other
order is untouched); a successful Deliver likewise changes only status
and deliveredAt. -/
theorem claim10_frame :
    (∀ (qr : String) (now : Nat) (s s' : SysState), scanHandler qr now s = .success s' →
        s'.catalog = s.catalog ∧ s'.orders.length = s.orders.length ∧
        ∀ (i : Nat) (o o' : Order), s.orders[i]? = some o → s'.orders[i]? = some o' →
          o' = o ∨ o' = { o with status := OrderStatus.scanned, scannedAt := some now }) ∧
    (∀ (oid now : Nat) (s s' : SysState), deliverHandler oid now s = .success s' →
        s'.catalog = s.catalog ∧ s'.orders.length = s.orders.length ∧
        ∀ (i : Nat) (o o' : Order), s.orders[i]? = some o → s'.orders[i]? = some o' →
          o' = o ∨ o' = { o with status := OrderStatus.delivered, deliveredAt := some now }) := by
  constructor
  · intro qr now s s' hsuc
    have happ : applyOp s (.scan qr now) = s' := by
      unfold applyOp
      simp only
      rw [hsuc]
    obtain ⟨o0, hfind, hst, hs2⟩ := scanHandler_success _ _ _ _ hsuc
    refine ⟨by rw [hs2], ?_, ?_⟩
    · rw [hs2]
      exact length_updateFirst _ _ _
    · intro i o o' h1 h2
      rw [← happ] at h2
      rcases applyOp_scan_orders s qr now i o o' h1 h2 with rfl | ⟨hact, rfl⟩
      · exact Or.inl rfl
      · exact Or.inr rfl
  · intro oid now s s' hsuc
    have happ : applyOp s (.deliver oid now) = s' := by
      unfold applyOp
      simp only
      rw [hsuc]
    obtain ⟨o0, hfind, hst, hs2⟩ := deliverHandler_success _ _ _ _ hsuc
    refine ⟨by rw [hs2], ?_, ?_⟩
    · rw [hs2]
      exact length_updateFirst _ _ _
    · intro i o o' h1 h2
      rw [← happ] at h2
      rcases applyOp_deliver_orders s oid now i o o' h1 h2 with rfl | ⟨hact, rfl⟩
      · exact Or.inl rfl
      · exact Or.inr rfl

/-- C10 witness: the frame theorem applied at a concrete scan and a
concrete delivery. -/
theorem claim10_witness :
    ((scanHandler "t" 5 wState = .success wScanState) ∧
      wScanState.catalog = wState.catalog ∧
      wScanState.orders.length = wState.orders.length ∧
      (∀ (i : Nat) (o o' : Order), wState.orders[i]? = some o →
        wScanState.orders[i]? = some o' →
        o' = o ∨ o' = { o with status := OrderStatus.scanned, scannedAt := some 5 })) ∧
    ((deliverHandler 1 6 wScanState = .success wDeliverState) ∧
      wDeliverState.catalog = wScanState.catalog ∧
      wDeliverState.orders.length = wScanState.orders.length ∧
      (∀ (i : Nat) (o o' : Order), wScanState.orders[i]? = some o →
        wDeliverState.orders[i]? = some o' →
        o' = o ∨ o' = { o with status := OrderStatus.delivered, deliveredAt := some 6 })) :=
  ⟨⟨by decide, claim10_frame.1 "t" 5 wState wScanState (by decide)⟩,
    ⟨by decide, claim10_frame.2 1 6 wScanState wDeliverState (by decide)⟩⟩

end SmartCanteen
